import Mathlib

/-!
Verification of the ploomber static-analysis core (`ploomber.static_analysis.pyflakes`)
against its natural-language specification.  The module itself is not shipped in this
source tree (only its test suite is), so every definition below is modelled from the
specification, with the concrete expected values of the test suite pinning the
behaviour wherever the specification leaves a choice.
-/

set_option maxHeartbeats 1000000
set_option maxRecDepth 4096

namespace Pyflakes

/-- Modelled from the spec: a cell kind is `code`, `markdown` or `raw`; only `code`
cells contribute to the assembled source. -/
inductive CellKind where
  | code
  | markdown
  | raw
deriving DecidableEq, BEq

/-- Modelled from the spec: a notebook cell carries a kind, a source text and a set
of tags (the cell tagged `parameters` is the parameter-declaration cell). -/
structure Cell where
  cell_type : CellKind
  source : String
  tags : List String
deriving DecidableEq

/-- Modelled from the spec: a notebook document is an ordered sequence of cells. -/
def Notebook : Type := List Cell

/-- True on ASCII letters and the underscore: the word characters that may follow
the magic trigger `%` or `%%`. -/
def isWordChar (c : Char) : Bool :=
  c.isAlpha || c = '_'

/-- Leading-whitespace strip, on character lists. -/
def lstripList (cs : List Char) : List Char :=
  cs.dropWhile Char.isWhitespace

/-- Leading-whitespace strip on strings (whitespace includes newlines, so on a whole
cell source this skips leading blank lines as well). -/
def lstrip (s : String) : String :=
  ⟨lstripList s.data⟩

/-- True when the character list starts with `%` followed by a word character. -/
def startsLineMagic : List Char → Bool
  | c0 :: c1 :: _ => c0 = '%' && isWordChar c1
  | _ => false

/-- True when the character list starts with `%%` followed by a word character. -/
def startsCellMagic : List Char → Bool
  | c0 :: c1 :: c2 :: _ => c0 = '%' && c1 = '%' && isWordChar c2
  | _ => false

/-- True when the character list starts with the given character. -/
def startsWithChar (t : Char) : List Char → Bool
  | c :: _ => c = t
  | [] => false

/-- A line whose first non-whitespace character sequence is one `%` immediately
followed by a word character (a second `%` disqualifies it, a word character is
never `%`): an IPython line magic. -/
def _is_ipython_line_magic (line : String) : Bool :=
  startsLineMagic (lstripList line.data)

/-- A cell source whose first non-whitespace character sequence is exactly `%%`
immediately followed by a word character: an IPython cell magic. -/
def _is_ipython_cell_magic (source : String) : Bool :=
  startsCellMagic (lstripList source.data)

/-- A line whose first non-whitespace character is `!`: a shell escape. -/
def _is_inline_shell (line : String) : Bool :=
  startsWithChar '!' (lstripList line.data)

/-- A line whose first non-whitespace character is `#`: a true comment line. -/
def _is_comment_line (line : String) : Bool :=
  startsWithChar '#' (lstripList line.data)

/-- A single line that is itself a cell-magic header (`%%` plus word character after
optional leading whitespace). -/
def _is_cell_magic_header (line : String) : Bool :=
  _is_ipython_cell_magic line

/-- Neutralize one line into a comment: the two-character prefix is prepended at the
very start of the line (the test suite fixes this byte-for-byte:
`   %cd` becomes `#    %cd`). -/
def _comment (line : String) : String :=
  "# " ++ line

/-- Split a character list at every newline; always returns at least one chunk and
never loses trailing newlines (joining the chunks back with newlines restores the
input exactly). -/
def splitLinesList : List Char → List (List Char)
  | [] => [[]]
  | c :: rest =>
    if c = '\n' then [] :: splitLinesList rest
    else
      match splitLinesList rest with
      | [] => [[c]]
      | l :: ls => (c :: l) :: ls

/-- The lines of a source text. -/
def sourceLines (s : String) : List String :=
  (splitLinesList s.data).map (fun l => ⟨l⟩)

/-- Join strings with a single newline separator. -/
def joinWithNewline : List String → String
  | [] => ""
  | [l] => l
  | l :: ls => l ++ "\n" ++ joinWithNewline ls

/-- A line consisting of whitespace only (this includes the empty line). -/
def isBlankLine (line : String) : Bool :=
  line.data.all Char.isWhitespace

/-- Modelled from the spec: in a cell classified as a cell magic, every line from
the header (the first non-blank line) through the end of the cell is neutralized;
leading blank lines are kept as they are. -/
def commentFromHeader : List String → List String
  | [] => []
  | l :: ls =>
    if isBlankLine l then l :: commentFromHeader ls
    else _comment l :: ls.map _comment

/-- Modelled from the spec: a cell contains a true comment line somewhere before
its first cell-magic header. Such a cell is never treated as a cell magic. -/
def commentBeforeHeader : List String → Bool
  | [] => false
  | l :: ls =>
    if _is_cell_magic_header l then false
    else if _is_comment_line l then ls.any _is_cell_magic_header
    else commentBeforeHeader ls

/-- Neutralize a single line when it is a line magic or a shell escape; every other
line is left byte-for-byte unchanged. -/
def neutralizeLine (line : String) : String :=
  if _is_ipython_line_magic line || _is_inline_shell line then _comment line
  else line

/-- Modelled from the spec: rewrite the magic lines of one cell source into
comments.  A cell classified as a cell magic is neutralized from its header through
the end; a cell with a true comment line before its first header is left untouched;
otherwise each line magic or shell-escape line is neutralized individually. -/
def _comment_if_ipython_magic (source : String) : String :=
  if _is_ipython_cell_magic source then
    joinWithNewline (commentFromHeader (sourceLines source))
  else if commentBeforeHeader (sourceLines source) then
    source
  else
    joinWithNewline ((sourceLines source).map neutralizeLine)

/-- Modelled from the spec: the semantic lint rules the checker detects (undefined
name at module scope, undefined local, duplicate function argument, and the four
control-flow keywords outside their legal enclosing construct). -/
inductive LintKind where
  | undefinedName
  | undefinedLocal
  | duplicateArgument
  | returnOutsideFunction
  | yieldOutsideFunction
  | continueOutsideLoop
  | breakOutsideLoop
deriving DecidableEq

/-- One semantic lint finding reported by the analyzer, with its line and its
human-readable message. -/
structure LintMessage where
  kind : LintKind
  line : Nat
  message : String
deriving DecidableEq

/-- Modelled from the spec: the tagged result of the external analyzer on one
source text: parsed with a list of lint findings, a structural parse failure, or an
internal tool failure unrelated to the analyzed code. -/
inductive AnalysisResult where
  | ok (findings : List LintMessage)
  | synErr (details : String)
  | internalErr (details : String)
deriving DecidableEq

/-- The typed errors this core raises: a hard parse failure, the aggregated
semantic-lint failure (a RenderError in the implementation), and the
parameter-contract mismatch (a TypeError in the implementation). -/
inductive CheckError where
  | synError (msg : String)
  | renderError (msg : String)
  | typeError (msg : String)
deriving DecidableEq

/-- The message carried by an error. -/
def CheckError.msg : CheckError → String
  | .synError m => m
  | .renderError m => m
  | .typeError m => m

/-- A call either returns normally or raises a typed error. -/
inductive RunResult where
  | ok
  | error (e : CheckError)
deriving DecidableEq

/-- The observable outcome of one entry-point call: either a raised error or a
normal return, together with the list of warnings emitted along the way. -/
structure Outcome where
  result : RunResult
  warnings : List String
deriving DecidableEq

/-- Join strings with an arbitrary separator. -/
def joinWith (sep : String) : List String → String
  | [] => ""
  | [l] => l
  | l :: ls => l ++ sep ++ joinWith sep ls

/-- The code cells of a notebook, in order. -/
def codeCells (nb : Notebook) : List Cell :=
  List.filter (fun c => c.cell_type == CellKind.code) nb

/-- Modelled from the spec: the assembled, neutralized source of a notebook: magic
neutralization runs per cell (cell magics need the cell boundary), and the results
are joined with a single newline; markdown and raw cells are skipped entirely. -/
def neutralizedSource (nb : Notebook) : String :=
  joinWithNewline ((codeCells nb).map (fun c => _comment_if_ipython_magic c.source))

/-- One source line per lint finding, aggregated into a single report. -/
def _process_messages (msgs : List LintMessage) : String :=
  joinWith "\n" (msgs.map (fun m => m.message))

/-- Modelled from the spec: the aggregated semantic-failure message enumerating
every finding of one pass. -/
def _make_error_message (error : String) : String :=
  "Errors detected in your source code:\n" ++ error ++
    "\n\n(ensure that your notebook executes from top-to-bottom and try again)"

/-- The message of the non-fatal warning emitted when the analyzer itself failed. -/
def unexpectedErrorWarning (details : String) : String :=
  "An unexpected error happened when analyzing code: \x27" ++ details ++ "\x27"

/-- Modelled from the spec: `check_source` assembles and neutralizes the code
cells, hands the text to the analyzer, and then: propagates a structural parse
failure unchanged as a hard error; downgrades an internal analyzer failure to a
single non-fatal warning and returns normally; raises one aggregated RenderError
when the analyzer reports semantic lint findings; returns silently otherwise.
The analyzer itself is an external collaborator and is passed in as a function. -/
def check_source (analyze : String → AnalysisResult) (nb : Notebook) : Outcome :=
  match analyze (neutralizedSource nb) with
  | .synErr d => ⟨.error (.synError d), []⟩
  | .internalErr d => ⟨.ok, [unexpectedErrorWarning d]⟩
  | .ok findings =>
    if findings.isEmpty then ⟨.ok, []⟩
    else ⟨.error (.renderError (_make_error_message (_process_messages findings))), []⟩

/-- Lexicographic order on character lists, used to sort name lists in messages. -/
def charListLt : List Char → List Char → Bool
  | [], [] => false
  | [], _ :: _ => true
  | _ :: _, [] => false
  | a :: as, b :: bs => if a < b then true else if b < a then false else charListLt as bs

/-- String order used for the sorted name lists of diagnostic messages. -/
def strLt (a b : String) : Bool :=
  charListLt a.data b.data

/-- Insert a string into an already sorted list. -/
def insertSorted (x : String) : List String → List String
  | [] => [x]
  | y :: ys => if strLt x y then x :: y :: ys else y :: insertSorted x ys

/-- Insertion sort for the name lists of diagnostic messages. -/
def sortStrings (l : List String) : List String :=
  l.foldr insertSorted []

/-- Strip whitespace from both ends of a character list. -/
def stripList (cs : List Char) : List Char :=
  ((cs.dropWhile Char.isWhitespace).reverse.dropWhile Char.isWhitespace).reverse

/-- True when the character may start an identifier. -/
def isIdentStart (c : Char) : Bool :=
  c.isAlpha || c = '_'

/-- True when the character may continue an identifier. -/
def isIdentChar (c : Char) : Bool :=
  c.isAlphanum || c = '_'

/-- True when the character list is a well-formed identifier. -/
def isIdentList : List Char → Bool
  | [] => false
  | c :: cs => isIdentStart c && cs.all isIdentChar

/-- Split a character list at its first `=`, when there is one. -/
def splitAtEq : List Char → Option (List Char × List Char)
  | [] => none
  | c :: rest =>
    if c = '=' then some ([], rest)
    else (splitAtEq rest).map (fun p => (c :: p.1, p.2))

/-- Modelled from the spec: the declared-parameter name of one line of the
parameters cell, when the line is a simple assignment `name = expression` (the
name on the left of the first `=`, which must not start `==`); any other
statement (a raise, a definition, plain expressions) declares nothing. -/
def declaredOfLine (line : String) : Option String :=
  match splitAtEq line.data with
  | none => none
  | some (lhs, rhs) =>
    let name := stripList lhs
    if isIdentList name && rhs.head? ≠ some '=' then some ⟨name⟩ else none

/-- Modelled from the spec: the set of left-hand-side names of the simple
assignment statements of the parameters-cell source, in first-seen order without
duplicates. -/
def declaredVariables (source : String) : List String :=
  ((sourceLines source).filterMap declaredOfLine).dedup

/-- Quote a name for a diagnostic message. -/
def quoteName (s : String) : String :=
  "\x27" ++ s ++ "\x27"

/-- Comma-join quoted names with an `and` before the last one. -/
def prettyAnd : List String → String
  | [] => ""
  | [a] => quoteName a
  | [a, b] => quoteName a ++ ", and " ++ quoteName b
  | a :: rest => quoteName a ++ ", " ++ prettyAnd rest

/-- Modelled from the spec: names listed sorted, comma-joined, with `and` before
the last. -/
def prettyIterable (l : List String) : String :=
  prettyAnd (sortStrings l)

/-- `them` for several names, the quoted name for a single one. -/
def themOrName : List String → String
  | [a] => quoteName a
  | _ => "them"

/-- Modelled from the spec: the `Missing params:` section of the mismatch message,
with its guidance to pass the names in the params argument. -/
def missingSection (missing : List String) : String :=
  "Missing params: " ++ prettyIterable missing ++ " (to fix this, pass " ++
    themOrName missing ++ " in the \x27params\x27 argument)"

/-- Modelled from the spec: the `Unexpected params:` section of the mismatch
message, with its guidance to add the names to the parameters cell. -/
def unexpectedSection (extra : List String) : String :=
  "Unexpected params: " ++ prettyIterable extra ++ " (to fix this, add " ++
    themOrName extra ++ " to the \x27parameters\x27 cell and assign the value as None. e.g., " ++
    (match sortStrings extra with | a :: _ => a | [] => "") ++ " = None)"

/-- Modelled from the spec: the full raise-mode mismatch message: it names the
label verbatim and then carries the missing and unexpected sections that apply. -/
def mismatchMessage (missing extra : List String) (label : String) : String :=
  "Parameters passed to \x27" ++ label ++ "\x27 do not match the \x27parameters\x27 cell. " ++
    joinWith ". " ((if missing.isEmpty then [] else [missingSection missing]) ++
      (if extra.isEmpty then [] else [unexpectedSection extra])) ++ "."

/-- The declared names the caller did not supply. -/
def missingOf (passed : List String) (source : String) : List String :=
  (declaredVariables source).filter (fun p => p ∉ passed)

/-- The supplied names the parameters cell does not declare. -/
def extraOf (passed : List String) (source : String) : List String :=
  passed.dedup.filter (fun p => p ∉ declaredVariables source)

/-- The fixed phrase opening the warn-mode message. -/
def paramsMismatchPhrase : String :=
  "Parameters declared in the \x27parameters\x27 cell do not match task params"

/-- Modelled from the spec: the shorter warn-mode message. -/
def paramsMismatchWarning (label : String) : String :=
  paramsMismatchPhrase ++
    ". To fix it, amend the \x27parameters\x27 cell or the params argument of " ++ label

/-- Modelled from the spec: `check_params` parses the parameters-cell source into
the declared names, compares them with the supplied names, returns silently when
the two sets match, and otherwise raises the mismatch TypeError (default mode) or
emits one non-fatal warning and returns normally (warn mode). -/
def check_params (passed : List String) (source : String) (label : String)
    (warn : Bool) : Outcome :=
  if (missingOf passed source).isEmpty && (extraOf passed source).isEmpty then
    ⟨.ok, []⟩
  else if warn then
    ⟨.ok, [paramsMismatchWarning label]⟩
  else
    ⟨.error (.typeError
      (mismatchMessage (missingOf passed source) (extraOf passed source) label)), []⟩

/-- The first cell carrying the given tag, when there is one. -/
def find_cell_with_tag (nb : Notebook) (tag : String) : Option Cell :=
  List.find? (fun c => c.tags.contains tag) nb

/-- The source of the parameters cell, empty when the tag is absent. -/
def parametersCellSource (nb : Notebook) : String :=
  match find_cell_with_tag nb "parameters" with
  | some c => c.source
  | none => ""

/-- Modelled from the spec and the observed behaviour recorded in its design note:
`check_notebook` runs `check_source` first; with `raise_` true a source failure
propagates unchanged and `check_params` is not reached, while with `raise_` false
the source failure is downgraded to a warning and the parameter contract is then
checked in warn mode; when `check_source` succeeds, `check_params` runs in raise
mode exactly when `raise_` is true. -/
def check_notebook (analyze : String → AnalysisResult) (nb : Notebook)
    (params : List String) (label : String) (raise_ : Bool) : Outcome :=
  match (check_source analyze nb).result with
  | .error e =>
    if raise_ then
      ⟨.error e, (check_source analyze nb).warnings⟩
    else
      ⟨(check_params params (parametersCellSource nb) label true).result,
        (check_source analyze nb).warnings ++ [e.msg] ++
          (check_params params (parametersCellSource nb) label true).warnings⟩
  | .ok =>
    ⟨(check_params params (parametersCellSource nb) label (!raise_)).result,
      (check_source analyze nb).warnings ++
        (check_params params (parametersCellSource nb) label (!raise_)).warnings⟩

/-! ### Helper lemmas -/

theorem sub_append_left {x m : List Char} (p : List Char) (h : x <:+: m) :
    x <:+: p ++ m := by
  obtain ⟨s, t, e⟩ := h
  exact ⟨p ++ s, t, by rw [← e]; simp⟩

theorem sub_append_right {x m : List Char} (q : List Char) (h : x <:+: m) :
    x <:+: m ++ q := by
  obtain ⟨s, t, e⟩ := h
  exact ⟨s, t ++ q, by rw [← e]; simp⟩

theorem sub_refl (x : List Char) : x <:+: x :=
  ⟨[], [], by simp⟩

theorem string_data_append (a b : String) : (a ++ b).data = a.data ++ b.data := by
  rfl

theorem mem_joinWith_sub (sep : String) :
    ∀ (l : List String), ∀ x ∈ l, x.data <:+: (joinWith sep l).data := by
  intro l
  induction l with
  | nil => intro x hx; cases hx
  | cons y ys ih =>
    intro x hx
    rcases List.mem_cons.mp hx with rfl | hmem
    · cases ys with
      | nil => exact sub_refl _
      | cons z zs =>
        show x.data <:+: (x ++ sep ++ joinWith sep (z :: zs)).data
        rw [string_data_append, string_data_append]
        exact sub_append_right _ (sub_append_right _ (sub_refl _))
    · cases ys with
      | nil => cases hmem
      | cons z zs =>
        show x.data <:+: (y ++ sep ++ joinWith sep (z :: zs)).data
        rw [string_data_append, string_data_append, List.append_assoc]
        exact sub_append_left _ (sub_append_left _ (ih x hmem))

theorem splitLinesList_ne_nil (cs : List Char) : splitLinesList cs ≠ [] := by
  induction cs with
  | nil => simp [splitLinesList]
  | cons c rest ih =>
    simp only [splitLinesList]
    split
    · simp
    · cases h : splitLinesList rest with
      | nil => simp
      | cons l ls => simp [h]

theorem no_newline_of_mem_splitLinesList {cs : List Char} {l : List Char}
    (hmem : l ∈ splitLinesList cs) : '\n' ∉ l := by
  induction cs generalizing l with
  | nil =>
    simp only [splitLinesList, List.mem_singleton] at hmem
    subst hmem; simp
  | cons c rest ih =>
    simp only [splitLinesList] at hmem
    by_cases hc : c = '\n'
    · rw [if_pos hc] at hmem
      rcases List.mem_cons.mp hmem with rfl | h
      · simp
      · exact ih h
    · rw [if_neg hc] at hmem
      cases hsplit : splitLinesList rest with
      | nil => exact absurd hsplit (splitLinesList_ne_nil rest)
      | cons m ms =>
        rw [hsplit] at hmem
        rcases List.mem_cons.mp hmem with rfl | h
        · intro hmem2
          rcases List.mem_cons.mp hmem2 with he | h2
          · exact hc he.symm
          · exact ih (by rw [hsplit]; exact List.mem_cons_self m ms) h2
        · exact ih (by rw [hsplit]; exact List.mem_cons_of_mem m h)

theorem splitLinesList_of_no_newline {cs : List Char} (h : '\n' ∉ cs) :
    splitLinesList cs = [cs] := by
  induction cs with
  | nil => rfl
  | cons c rest ih =>
    have hc : ¬(c = '\n') := fun he => h (he ▸ List.mem_cons_self c rest)
    have hr : '\n' ∉ rest := fun hm => h (List.mem_cons_of_mem c hm)
    simp only [splitLinesList, if_neg hc, ih hr]

theorem splitLinesList_append_newline {cs : List Char} (rest : List Char)
    (h : '\n' ∉ cs) :
    splitLinesList (cs ++ '\n' :: rest) = cs :: splitLinesList rest := by
  induction cs with
  | nil => simp [splitLinesList]
  | cons c cs' ih =>
    have hc : ¬(c = '\n') := fun he => h (he ▸ List.mem_cons_self c cs')
    have hr : '\n' ∉ cs' := fun hm => h (List.mem_cons_of_mem c hm)
    have hstep : splitLinesList (c :: cs' ++ '\n' :: rest) =
        match splitLinesList (cs' ++ '\n' :: rest) with
        | [] => [[c]]
        | l :: ls => (c :: l) :: ls := by
      simp only [List.cons_append, splitLinesList, if_neg hc, List.append_eq]
    rw [hstep, ih hr]

theorem sourceLines_joinWithNewline :
    ∀ (ls : List String), ls ≠ [] → (∀ l ∈ ls, '\n' ∉ l.data) →
      sourceLines (joinWithNewline ls) = ls := by
  intro ls
  induction ls with
  | nil => intro h; exact absurd rfl h
  | cons y ys ih =>
    intro _ hnl
    cases ys with
    | nil =>
      show sourceLines y = [y]
      unfold sourceLines
      rw [splitLinesList_of_no_newline (hnl y (List.mem_cons_self y []))]
      rfl
    | cons z zs =>
      show sourceLines (y ++ "\n" ++ joinWithNewline (z :: zs)) = y :: z :: zs
      unfold sourceLines
      rw [string_data_append, string_data_append]
      have hy : '\n' ∉ y.data := hnl y (List.mem_cons_self y _)
      have hd : ("\n" : String).data = ['\n'] := rfl
      rw [hd, List.append_assoc, List.singleton_append]
      rw [splitLinesList_append_newline _ hy]
      have hih := ih (by simp) (fun l hl => hnl l (List.mem_cons_of_mem y hl))
      unfold sourceLines at hih
      rw [List.map_cons, hih]

theorem sourceLines_ne_nil (s : String) : sourceLines s ≠ [] := by
  unfold sourceLines
  intro h
  exact splitLinesList_ne_nil s.data (List.map_eq_nil_iff.mp h)

theorem no_newline_of_mem_sourceLines {s : String} {l : String}
    (h : l ∈ sourceLines s) : '\n' ∉ l.data := by
  unfold sourceLines at h
  obtain ⟨cs, hcs, he⟩ := List.mem_map.mp h
  subst he
  exact no_newline_of_mem_splitLinesList hcs

theorem lstripList_cons_ws {c : Char} (hw : c.isWhitespace = true) (cs : List Char) :
    lstripList (c :: cs) = lstripList cs := by
  unfold lstripList
  rw [List.dropWhile_cons, if_pos hw]

theorem lstripList_cons_not_ws {c : Char} (hw : ¬(c.isWhitespace = true)) (cs : List Char) :
    lstripList (c :: cs) = c :: cs := by
  unfold lstripList
  rw [List.dropWhile_cons, if_neg hw]

theorem lstripList_append_ws {ws : List Char} (h : ∀ x ∈ ws, x.isWhitespace = true)
    (l : List Char) : lstripList (ws ++ l) = lstripList l := by
  induction ws with
  | nil => rfl
  | cons w ws' ih =>
    rw [List.cons_append, lstripList_cons_ws (h w (List.mem_cons_self w ws'))]
    exact ih (fun x hx => h x (List.mem_cons_of_mem w hx))

/-- The specification wording of the cell-magic classification: after some leading
whitespace the source reads `%%`, then a word character, then anything. -/
def cellMagicSpec (s : String) : Prop :=
  ∃ (ws : List Char) (c : Char) (rest : List Char),
    s.data = ws ++ '%' :: '%' :: c :: rest ∧
      (∀ x ∈ ws, x.isWhitespace = true) ∧ isWordChar c = true

theorem isWordChar_not_ws {c : Char} (h : isWordChar c = true) :
    c.isWhitespace = false := by
  cases hb : c.isWhitespace with
  | false => rfl
  | true =>
    exfalso
    unfold Char.isWhitespace at hb
    simp only [Bool.or_eq_true, decide_eq_true_eq] at hb
    rcases hb with ((rfl | rfl) | rfl) | rfl <;> exact absurd h (by decide)

theorem cell_magic_iff_spec (s : String) :
    _is_ipython_cell_magic s = true ↔ cellMagicSpec s := by
  constructor
  · intro h
    unfold _is_ipython_cell_magic at h
    rcases hls : lstripList s.data with _ | ⟨c0, _ | ⟨c1, _ | ⟨c2, rest⟩⟩⟩ <;>
      rw [hls] at h
    · exact absurd h (by simp [startsCellMagic])
    · exact absurd h (by simp [startsCellMagic])
    · exact absurd h (by simp [startsCellMagic])
    · unfold startsCellMagic at h
      simp only [Bool.and_eq_true, decide_eq_true_eq] at h
      obtain ⟨⟨h0, h1⟩, h2⟩ := h
      subst h0; subst h1
      refine ⟨s.data.takeWhile Char.isWhitespace, c2, rest, ?_, ?_, h2⟩
      · conv_lhs => rw [← List.takeWhile_append_dropWhile (p := Char.isWhitespace) (l := s.data)]
        unfold lstripList at hls
        rw [hls]
      · intro x hx
        exact List.mem_takeWhile_imp hx
  · rintro ⟨ws, c, rest, he, hws, hw⟩
    unfold _is_ipython_cell_magic lstripList
    rw [he]
    have : lstripList (ws ++ '%' :: '%' :: c :: rest) = '%' :: '%' :: c :: rest := by
      rw [lstripList_append_ws hws]
      exact lstripList_cons_not_ws (by decide) _
    unfold lstripList at this
    rw [this]
    unfold startsCellMagic
    simp [hw]

theorem cell_magic_cons_ws {c : Char} (hw : c.isWhitespace = true) (s : String) :
    _is_ipython_cell_magic ⟨c :: s.data⟩ = _is_ipython_cell_magic s := by
  unfold _is_ipython_cell_magic
  rw [show (⟨c :: s.data⟩ : String).data = c :: s.data from rfl,
    lstripList_cons_ws hw]

theorem commentBeforeHeader_cons (l : String) (ls : List String) :
    commentBeforeHeader (l :: ls) =
      if _is_cell_magic_header l then false
      else if _is_comment_line l then ls.any _is_cell_magic_header
      else commentBeforeHeader ls := rfl

theorem splitLinesList_cons_ne_newline {c : Char} (hc : ¬(c = '\n')) (cs : List Char) :
    ∃ h t, splitLinesList cs = h :: t ∧ splitLinesList (c :: cs) = (c :: h) :: t := by
  cases hsplit : splitLinesList cs with
  | nil => exact absurd hsplit (splitLinesList_ne_nil cs)
  | cons h t =>
    refine ⟨h, t, rfl, ?_⟩
    simp only [splitLinesList, if_neg hc, hsplit]

theorem header_first_no_commentBefore {cs : List Char}
    (h : startsCellMagic (lstripList cs) = true) :
    commentBeforeHeader ((splitLinesList cs).map (fun l => ⟨l⟩)) = false := by
  induction cs with
  | nil => exact absurd h (by simp [lstripList, startsCellMagic])
  | cons c0 cs' ih =>
    by_cases hw : c0.isWhitespace = true
    · rw [lstripList_cons_ws hw] at h
      by_cases hnl : c0 = '\n'
      · subst hnl
        have hsplit : splitLinesList ('\n' :: cs') = [] :: splitLinesList cs' := by
          simp [splitLinesList]
        rw [hsplit, List.map_cons, commentBeforeHeader_cons]
        rw [show _is_cell_magic_header ⟨([] : List Char)⟩ = false from rfl,
          show _is_comment_line ⟨([] : List Char)⟩ = false from rfl]
        simp only [if_false, Bool.false_eq_true]
        exact ih h
      · obtain ⟨hd, tl, hsplit', hsplit⟩ := splitLinesList_cons_ne_newline hnl cs'
        rw [hsplit, List.map_cons, commentBeforeHeader_cons]
        have hhd : _is_cell_magic_header ⟨c0 :: hd⟩ = _is_cell_magic_header ⟨hd⟩ := by
          unfold _is_cell_magic_header _is_ipython_cell_magic
          rw [show (⟨c0 :: hd⟩ : String).data = c0 :: hd from rfl, lstripList_cons_ws hw]
        have hcm : _is_comment_line ⟨c0 :: hd⟩ = _is_comment_line ⟨hd⟩ := by
          unfold _is_comment_line
          rw [show (⟨c0 :: hd⟩ : String).data = c0 :: hd from rfl, lstripList_cons_ws hw]
        rw [hhd, hcm]
        have := ih h
        rw [hsplit', List.map_cons, commentBeforeHeader_cons] at this
        exact this
    · rw [lstripList_cons_not_ws hw] at h
      rcases hshape : cs' with _ | ⟨c1, cs''⟩
      · rw [hshape] at h; exact absurd h (by simp [startsCellMagic])
      · rcases hshape2 : cs'' with _ | ⟨c2, rest⟩
        · rw [hshape, hshape2] at h; exact absurd h (by simp [startsCellMagic])
        · rw [hshape, hshape2] at h
          unfold startsCellMagic at h
          simp only [Bool.and_eq_true, decide_eq_true_eq] at h
          obtain ⟨⟨h0, h1⟩, h2⟩ := h
          subst hshape; subst hshape2
          have hnl0 : ¬(c0 = '\n') := by rw [h0]; decide
          have hnl1 : ¬(c1 = '\n') := by rw [h1]; decide
          have hnl2 : ¬(c2 = '\n') := by
            intro he; rw [he] at h2; exact absurd h2 (by decide)
          obtain ⟨hd3, tl3, _, hsplit3⟩ := splitLinesList_cons_ne_newline hnl2 rest
          obtain ⟨hd2, tl2, hsplit2', hsplit2⟩ := splitLinesList_cons_ne_newline hnl1 (c2 :: rest)
          obtain ⟨hd1, tl1, hsplit1', hsplit1⟩ := splitLinesList_cons_ne_newline hnl0 (c1 :: c2 :: rest)
          rw [hsplit1, List.map_cons, commentBeforeHeader_cons]
          rw [hsplit2] at hsplit1'
          have hhd1 : hd1 = c1 :: hd2 := by
            have := hsplit1'
            injection this with e1 _
            exact e1.symm
          have hhd2 : hd2 = c2 :: hd3 := by
            rw [hsplit3] at hsplit2'
            injection hsplit2' with e1 _
            exact e1.symm
          have hheader : _is_cell_magic_header ⟨c0 :: hd1⟩ = true := by
            unfold _is_cell_magic_header _is_ipython_cell_magic
            rw [show (⟨c0 :: hd1⟩ : String).data = c0 :: hd1 from rfl]
            rw [hhd1, hhd2]
            rw [lstripList_cons_not_ws hw]
            unfold startsCellMagic
            simp [h0, h1, h2]
          rw [hheader]
          simp

theorem commentFromHeader_eq (ls : List String) :
    commentFromHeader ls =
      ls.takeWhile isBlankLine ++ (ls.dropWhile isBlankLine).map _comment := by
  induction ls with
  | nil => rfl
  | cons l ls ih =>
    by_cases h : isBlankLine l
    · simp only [commentFromHeader, if_pos h, List.takeWhile_cons, List.dropWhile_cons,
        h, ite_true, List.cons_append, ih]
    · simp only [commentFromHeader, if_neg h, List.takeWhile_cons, List.dropWhile_cons,
        h, Bool.false_eq_true, ite_false, List.map_cons, List.nil_append]

theorem commentFromHeader_length (ls : List String) :
    (commentFromHeader ls).length = ls.length := by
  rw [commentFromHeader_eq, List.length_append, List.length_map]
  conv_rhs => rw [← List.takeWhile_append_dropWhile (p := isBlankLine) (l := ls)]
  rw [List.length_append]

theorem no_newline_comment {l : String} (h : '\n' ∉ l.data) :
    '\n' ∉ (_comment l).data := by
  intro hmem
  rcases List.mem_cons.mp hmem with he | hmem2
  · exact absurd he (by decide)
  · rcases List.mem_cons.mp hmem2 with he | hmem3
    · exact absurd he (by decide)
    · exact h hmem3

theorem no_newline_neutralizeLine {l : String} (h : '\n' ∉ l.data) :
    '\n' ∉ (neutralizeLine l).data := by
  unfold neutralizeLine
  split
  · exact no_newline_comment h
  · exact h

theorem no_newline_commentFromHeader {ls : List String} (h : ∀ l ∈ ls, '\n' ∉ l.data) :
    ∀ l ∈ commentFromHeader ls, '\n' ∉ l.data := by
  intro l hl
  rw [commentFromHeader_eq] at hl
  rcases List.mem_append.mp hl with hmem | hmem
  · exact h l (List.takeWhile_subset _ hmem)
  · obtain ⟨m, hm, he⟩ := List.mem_map.mp hmem
    subst he
    exact no_newline_comment (h m (List.dropWhile_subset _ hm))

theorem commentBeforeHeader_singleton (l : String) :
    commentBeforeHeader [l] = false := by
  rw [commentBeforeHeader_cons]
  split
  · rfl
  · split
    · rfl
    · rfl

theorem line_magic_not_cell_magic {l : String} (h : _is_ipython_line_magic l = true) :
    _is_ipython_cell_magic l = false := by
  unfold _is_ipython_line_magic at h
  unfold _is_ipython_cell_magic
  rcases hls : lstripList l.data with _ | ⟨c0, _ | ⟨c1, _ | ⟨c2, rest⟩⟩⟩ <;>
    rw [hls] at h
  · rfl
  · rfl
  · rfl
  · unfold startsLineMagic at h
    simp only [Bool.and_eq_true, decide_eq_true_eq] at h
    obtain ⟨_, h1⟩ := h
    have hc1 : decide (c1 = '%') = false := by
      cases hb : decide (c1 = '%') with
      | false => rfl
      | true =>
        have he : c1 = '%' := of_decide_eq_true hb
        rw [he] at h1
        exact absurd h1 (by decide)
    unfold startsCellMagic
    simp [hc1]

theorem shell_not_cell_magic {l : String} (h : _is_inline_shell l = true) :
    _is_ipython_cell_magic l = false := by
  unfold _is_inline_shell at h
  unfold _is_ipython_cell_magic
  rcases hls : lstripList l.data with _ | ⟨c0, _ | ⟨c1, _ | ⟨c2, rest⟩⟩⟩ <;>
    rw [hls] at h
  · rfl
  · rfl
  · rfl
  · unfold startsWithChar at h
    have h0 : c0 = '!' := of_decide_eq_true h
    unfold startsCellMagic
    rw [h0]
    simp

theorem sub_of_chunk_right {x m : String} (a : String) (h : x.data <:+: m.data) :
    x.data <:+: (a ++ m).data := by
  rw [string_data_append]
  exact sub_append_left _ h

theorem sub_of_chunk_left {x m : String} (b : String) (h : x.data <:+: m.data) :
    x.data <:+: (m ++ b).data := by
  rw [string_data_append]
  exact sub_append_right _ h

theorem label_sub_mismatchMessage (missing extra : List String) (label : String) :
    label.data <:+: (mismatchMessage missing extra label).data := by
  unfold mismatchMessage
  exact sub_of_chunk_left _ (sub_of_chunk_left _
    (sub_of_chunk_left _ (sub_of_chunk_right _ (sub_refl _))))

theorem missing_sub_mismatchMessage (missing extra : List String) (label : String)
    (h : ¬(missing.isEmpty = true)) :
    (missingSection missing).data <:+: (mismatchMessage missing extra label).data := by
  unfold mismatchMessage
  apply sub_of_chunk_left
  apply sub_of_chunk_right
  apply mem_joinWith_sub
  rw [if_neg h]
  exact List.mem_append_left _ (List.mem_cons_self _ _)

theorem unexpected_sub_mismatchMessage (missing extra : List String) (label : String)
    (h : ¬(extra.isEmpty = true)) :
    (unexpectedSection extra).data <:+: (mismatchMessage missing extra label).data := by
  unfold mismatchMessage
  apply sub_of_chunk_left
  apply sub_of_chunk_right
  apply mem_joinWith_sub
  rw [if_neg h]
  exact List.mem_append_right _ (List.mem_cons_self _ _)

theorem phrase_sub_paramsMismatchWarning (label : String) :
    paramsMismatchPhrase.data <:+: (paramsMismatchWarning label).data := by
  unfold paramsMismatchWarning
  exact sub_of_chunk_left _ (sub_of_chunk_left _ (sub_refl _))

theorem sourceLines_comment_if_magic (s : String) :
    sourceLines (_comment_if_ipython_magic s) =
      if _is_ipython_cell_magic s then commentFromHeader (sourceLines s)
      else if commentBeforeHeader (sourceLines s) then sourceLines s
      else (sourceLines s).map neutralizeLine := by
  unfold _comment_if_ipython_magic
  split
  · apply sourceLines_joinWithNewline
    · intro h
      have hlen := commentFromHeader_length (sourceLines s)
      rw [h] at hlen
      exact sourceLines_ne_nil s (List.length_eq_zero.mp hlen.symm)
    · exact no_newline_commentFromHeader (fun l hl => no_newline_of_mem_sourceLines hl)
  · split
    · rfl
    · apply sourceLines_joinWithNewline
      · intro h
        have hlen : (sourceLines s).length = 0 := by
          have := congrArg List.length h
          simpa using this
        exact sourceLines_ne_nil s (List.length_eq_zero.mp hlen)
      · intro l hl
        obtain ⟨m, hm, he⟩ := List.mem_map.mp hl
        subst he
        exact no_newline_neutralizeLine (no_newline_of_mem_sourceLines hm)

theorem lineCount_comment_if_magic (s : String) :
    (sourceLines (_comment_if_ipython_magic s)).length = (sourceLines s).length := by
  rw [sourceLines_comment_if_magic]
  split
  · exact commentFromHeader_length _
  · split
    · rfl
    · exact List.length_map _ _

theorem commentBefore_of_decomp {pre mid post : List String} {cl hl : String}
    (hcl : _is_comment_line cl = true) (hhl : _is_cell_magic_header hl = true)
    (hnh : ∀ x ∈ pre ++ cl :: mid, _is_cell_magic_header x = false) :
    commentBeforeHeader (pre ++ cl :: mid ++ hl :: post) = true := by
  induction pre with
  | nil =>
    rw [List.nil_append, List.cons_append, commentBeforeHeader_cons]
    rw [hnh cl (by simp)]
    simp only [Bool.false_eq_true, if_false, hcl, if_true]
    rw [List.any_eq_true]
    exact ⟨hl, List.mem_append_right _ (List.mem_cons_self _ _), hhl⟩
  | cons p pre' ih =>
    rw [List.cons_append, List.cons_append, commentBeforeHeader_cons]
    rw [hnh p (List.mem_cons_self _ _)]
    simp only [Bool.false_eq_true, if_false]
    by_cases hcp : _is_comment_line p = true
    · rw [hcp]
      simp only [if_true]
      rw [List.any_eq_true]
      exact ⟨hl, List.mem_append_right _ (List.mem_cons_self _ _), hhl⟩
    · have hf : _is_comment_line p = false := by
        cases hb : _is_comment_line p with
        | false => rfl
        | true => exact absurd hb hcp
      rw [hf]
      simp only [Bool.false_eq_true, if_false]
      exact ih (fun x hx => hnh x (List.mem_cons_of_mem p hx))

theorem check_source_syn {analyze : String → AnalysisResult} {nb : Notebook} {d : String}
    (h : analyze (neutralizedSource nb) = .synErr d) :
    check_source analyze nb = ⟨.error (.synError d), []⟩ := by
  unfold check_source
  rw [h]

theorem check_source_internal {analyze : String → AnalysisResult} {nb : Notebook}
    {d : String} (h : analyze (neutralizedSource nb) = .internalErr d) :
    check_source analyze nb = ⟨.ok, [unexpectedErrorWarning d]⟩ := by
  unfold check_source
  rw [h]

theorem check_source_findings {analyze : String → AnalysisResult} {nb : Notebook}
    {findings : List LintMessage} (h : analyze (neutralizedSource nb) = .ok findings)
    (hne : findings ≠ []) :
    check_source analyze nb =
      ⟨.error (.renderError (_make_error_message (_process_messages findings))), []⟩ := by
  unfold check_source
  rw [h]
  have hf : findings.isEmpty = false := by
    cases findings with
    | nil => exact absurd rfl hne
    | cons a l => rfl
  simp [hf]

theorem check_params_warn_result (passed : List String) (source label : String) :
    (check_params passed source label true).result = .ok := by
  unfold check_params
  split
  · rfl
  · rfl

theorem check_notebook_of_source_error {analyze : String → AnalysisResult}
    {nb : Notebook} {e : CheckError} {w : List String}
    (h : check_source analyze nb = ⟨.error e, w⟩)
    (params : List String) (label : String) :
    check_notebook analyze nb params label true = ⟨.error e, w⟩ ∧
      check_notebook analyze nb params label false =
        ⟨(check_params params (parametersCellSource nb) label true).result,
          w ++ [e.msg] ++
            (check_params params (parametersCellSource nb) label true).warnings⟩ := by
  constructor
  · unfold check_notebook
    rw [h]
    rfl
  · unfold check_notebook
    rw [h]
    rfl

theorem check_notebook_of_source_ok {analyze : String → AnalysisResult}
    {nb : Notebook} {w : List String}
    (h : check_source analyze nb = ⟨.ok, w⟩)
    (params : List String) (label : String) (raise_ : Bool) :
    check_notebook analyze nb params label raise_ =
      ⟨(check_params params (parametersCellSource nb) label (!raise_)).result,
        w ++ (check_params params (parametersCellSource nb) label (!raise_)).warnings⟩ := by
  unfold check_notebook
  rw [h]

theorem missing_extra_nil_iff (passed : List String) (source : String) :
    (missingOf passed source = [] ∧ extraOf passed source = []) ↔
      (∀ x, x ∈ declaredVariables source ↔ x ∈ passed) := by
  constructor
  · rintro ⟨hm, hx⟩ x
    constructor
    · intro hd
      by_contra hnp
      have hmem : x ∈ missingOf passed source := by
        unfold missingOf
        rw [List.mem_filter]
        exact ⟨hd, by simpa using hnp⟩
      rw [hm] at hmem
      cases hmem
    · intro hp
      by_contra hnd
      have hmem : x ∈ extraOf passed source := by
        unfold extraOf
        rw [List.mem_filter]
        exact ⟨List.mem_dedup.mpr hp, by simpa using hnd⟩
      rw [hx] at hmem
      cases hmem
  · intro h
    constructor
    · unfold missingOf
      rw [List.filter_eq_nil_iff]
      intro a ha
      simp only [decide_eq_true_eq, Decidable.not_not]
      exact (h a).mp ha
    · unfold extraOf
      rw [List.filter_eq_nil_iff]
      intro a ha
      simp only [decide_eq_true_eq, Decidable.not_not]
      exact (h a).mpr (List.mem_dedup.mp ha)

theorem params_cond_iff (passed : List String) (source : String) :
    ((missingOf passed source).isEmpty && (extraOf passed source).isEmpty) = true ↔
      (∀ x, x ∈ declaredVariables source ↔ x ∈ passed) := by
  rw [Bool.and_eq_true, List.isEmpty_iff, List.isEmpty_iff]
  exact missing_extra_nil_iff passed source

theorem check_params_match {passed : List String} {source : String}
    (h : ∀ x, x ∈ declaredVariables source ↔ x ∈ passed) (label : String) (warn : Bool) :
    check_params passed source label warn = ⟨.ok, []⟩ := by
  unfold check_params
  rw [if_pos ((params_cond_iff passed source).mpr h)]

theorem params_cond_false {passed : List String} {source : String}
    (h : ¬(∀ x, x ∈ declaredVariables source ↔ x ∈ passed)) :
    ((missingOf passed source).isEmpty && (extraOf passed source).isEmpty) = false := by
  cases hb : ((missingOf passed source).isEmpty && (extraOf passed source).isEmpty) with
  | false => rfl
  | true => exact absurd ((params_cond_iff passed source).mp hb) h

theorem check_params_mismatch_raise {passed : List String} {source : String}
    (h : ¬(∀ x, x ∈ declaredVariables source ↔ x ∈ passed)) (label : String) :
    check_params passed source label false =
      ⟨.error (.typeError
        (mismatchMessage (missingOf passed source) (extraOf passed source) label)), []⟩ := by
  unfold check_params
  rw [params_cond_false h]
  rfl

theorem check_params_mismatch_warn {passed : List String} {source : String}
    (h : ¬(∀ x, x ∈ declaredVariables source ↔ x ∈ passed)) (label : String) :
    check_params passed source label true = ⟨.ok, [paramsMismatchWarning label]⟩ := by
  unfold check_params
  rw [params_cond_false h]
  rfl

/-- The notebook of the test suite whose parameters cell declares `a = 1` and whose
second code cell reads `c = a + b` with `b` undefined. -/
def nbLint : Notebook :=
  [⟨CellKind.code, "a = 1", ["parameters"]⟩, ⟨CellKind.code, "c = a + b", []⟩]

/-- The notebook of the test suite whose parameters cell declares `a = 1` and whose
second code cell is the bare `if`, a structural parse failure. -/
def nbBadIf : Notebook :=
  [⟨CellKind.code, "a = 1", ["parameters"]⟩, ⟨CellKind.code, "if", []⟩]

/-- The external analyzer behaviour on `nbLint`: one undefined-name finding. -/
def analyzeUndefined : String → AnalysisResult :=
  fun _ => .ok [⟨.undefinedName, 2, "undefined name \x27b\x27"⟩]

/-- The external analyzer behaviour on `nbBadIf`: a structural parse failure. -/
def analyzeBadIf : String → AnalysisResult :=
  fun _ => .synErr "invalid syntax"

/-- An analyzer that parses the source cleanly with no findings. -/
def analyzeClean : String → AnalysisResult :=
  fun _ => .ok []

/-- An analyzer that fails internally, as in the monkeypatched test. -/
def analyzeInternal : String → AnalysisResult :=
  fun _ => .internalErr ": problem decoding source"

/-! ### Claims -/

/-- C6, counterexample: the claim states that for a line classified as a shell
escape or line magic the two-character `# ` prefix is inserted after the original
leading whitespace, producing `<original-indent># <trigger-and-rest>`.  On the
line `   %cd` (a line magic with three spaces of indent, from the test suite) the
code instead prepends the prefix before the indent, producing `#    %cd` and not
`   # %cd`. -/
theorem C6_counterexample :
    _is_ipython_line_magic "   %cd" = true ∧
      _comment_if_ipython_magic "   %cd" = "#    %cd" ∧
      _comment_if_ipython_magic "   %cd" ≠ "   # %cd" :=
  ⟨by decide, by decide, by decide⟩

/-- C6, amended: for every newline-free line classified as a shell escape or a
line magic, neutralization prepends the two-character `# ` prefix at the very
start of the line, before the original leading whitespace, shifting the whole
line right by two characters: the output line is `# ` followed by the original
line. -/
theorem C6_amended (l : String)
    (h : (_is_ipython_line_magic l || _is_inline_shell l) = true)
    (hnl : '\n' ∉ l.data) :
    neutralizeLine l = "# " ++ l ∧ _comment_if_ipython_magic l = "# " ++ l := by
  have hn : neutralizeLine l = "# " ++ l := by
    unfold neutralizeLine
    rw [if_pos h]
    rfl
  refine ⟨hn, ?_⟩
  have hcm : _is_ipython_cell_magic l = false := by
    rcases Bool.or_eq_true_iff.mp h with hl | hs
    · exact line_magic_not_cell_magic hl
    · exact shell_not_cell_magic hs
  have hlines : sourceLines l = [l] := by
    unfold sourceLines
    rw [splitLinesList_of_no_newline hnl]
    rfl
  unfold _comment_if_ipython_magic
  rw [hcm, hlines, commentBeforeHeader_singleton]
  simp only [Bool.false_eq_true, if_false, List.map_cons, List.map_nil]
  show joinWithNewline [neutralizeLine l] = "# " ++ l
  rw [show joinWithNewline [neutralizeLine l] = neutralizeLine l from rfl, hn]

/-- C6, witness for the amended claim at the concrete line `   %cd`. -/
theorem C6_amended_witness :
    neutralizeLine "   %cd" = "# " ++ "   %cd" ∧
      _comment_if_ipython_magic "   %cd" = "# " ++ "   %cd" :=
  C6_amended "   %cd" (by decide) (by decide)

/-- C7: neutralization of the shell escape `! mkdir stuff` yields exactly
`# ! mkdir stuff`, of `   ! mkdir stuff` yields exactly `#    ! mkdir stuff`, and
of the line magic `%debug` yields exactly `# %debug`; the total line count of any
neutralized cell is unchanged, and a line that is neither a line magic nor a
shell escape is left byte-for-byte as it was by the per-line rewrite. -/
theorem C7_literal_neutralization :
    _comment_if_ipython_magic "! mkdir stuff" = "# ! mkdir stuff" ∧
      _comment_if_ipython_magic "   ! mkdir stuff" = "#    ! mkdir stuff" ∧
      _comment_if_ipython_magic "%debug" = "# %debug" ∧
      (∀ s, (sourceLines (_comment_if_ipython_magic s)).length =
        (sourceLines s).length) ∧
      (∀ l, _is_ipython_line_magic l = false → _is_inline_shell l = false →
        neutralizeLine l = l) := by
  refine ⟨by decide, by decide, by decide, lineCount_comment_if_magic, ?_⟩
  intro l h1 h2
  unfold neutralizeLine
  rw [h1, h2]
  rfl

/-- C7, witness: the per-line rewrite leaves the ordinary code line `x = 1`
untouched. -/
theorem C7_witness : neutralizeLine "x = 1" = "x = 1" :=
  C7_literal_neutralization.2.2.2.2 "x = 1" (by decide) (by decide)

/-- C8: a cell is classified as a cell magic exactly when its first
non-whitespace character sequence is `%%` immediately followed by a word
character (`%%sh` and `%%sh --no-raise-error` qualify, `%% sh` and `%%%debug` do
not), and a so-classified cell is neutralized from the header line (its first
non-blank line) through the end of the cell, every one of those lines receiving
the `# ` prefix: the cell `%%html` + newline + `some html` becomes `# %%html` +
newline + `# some html`. -/
theorem C8_cell_magic_classification :
    (∀ s, _is_ipython_cell_magic s = true ↔ cellMagicSpec s) ∧
      _is_ipython_cell_magic "%%sh" = true ∧
      _is_ipython_cell_magic "%%sh --no-raise-error" = true ∧
      _is_ipython_cell_magic "%% sh" = false ∧
      _is_ipython_cell_magic "%%%debug" = false ∧
      (∀ s, _is_ipython_cell_magic s = true →
        sourceLines (_comment_if_ipython_magic s) =
          (sourceLines s).takeWhile isBlankLine ++
            ((sourceLines s).dropWhile isBlankLine).map _comment) ∧
      _comment_if_ipython_magic "%%html\nsome html" = "# %%html\n# some html" := by
  refine ⟨cell_magic_iff_spec, by decide, by decide, by decide, by decide, ?_, by decide⟩
  intro s hs
  rw [sourceLines_comment_if_magic, if_pos hs, commentFromHeader_eq]

/-- C8, witness: the general neutralized-lines description applied to the
concrete classified cell `%%html` + newline + `some html`. -/
theorem C8_witness :
    sourceLines (_comment_if_ipython_magic "%%html\nsome html") =
      (sourceLines "%%html\nsome html").takeWhile isBlankLine ++
        ((sourceLines "%%html\nsome html").dropWhile isBlankLine).map _comment :=
  C8_cell_magic_classification.2.2.2.2.2.1 "%%html\nsome html" (by decide)

/-- C9: a cell that contains a true comment line anywhere before its first
cell-magic header line is not classified as a cell magic and is left entirely
unchanged by neutralization; leading blank and whitespace-only lines before the
header never disqualify the classification (prepending a whitespace character to
a cell leaves the classification unchanged). -/
theorem C9_comment_cancels_cell_magic :
    (∀ (s : String) (pre mid post : List String) (cl hl : String),
      sourceLines s = pre ++ cl :: mid ++ hl :: post →
      _is_comment_line cl = true →
      _is_cell_magic_header hl = true →
      (∀ x ∈ pre ++ cl :: mid, _is_cell_magic_header x = false) →
      _is_ipython_cell_magic s = false ∧ _comment_if_ipython_magic s = s) ∧
      (∀ (c : Char) (s : String), c.isWhitespace = true →
        _is_ipython_cell_magic ⟨c :: s.data⟩ = _is_ipython_cell_magic s) ∧
      _is_ipython_cell_magic "\n\n%%html\nhello" = true ∧
      _is_ipython_cell_magic "\n\n   %%html\nhello" = true ∧
      _is_ipython_cell_magic "  %%html\nhello" = true ∧
      _is_ipython_cell_magic "# comment\n%%html\nhello" = false ∧
      _comment_if_ipython_magic "# some comment\n%%html\nsome html" =
        "# some comment\n%%html\nsome html" := by
  refine ⟨?_, fun c s hw => cell_magic_cons_ws hw s, by decide, by decide, by decide,
    by decide, by decide⟩
  intro s pre mid post cl hl hdecomp hcl hhl hnh
  have hcb : commentBeforeHeader (sourceLines s) = true := by
    rw [hdecomp]
    exact commentBefore_of_decomp hcl hhl hnh
  have hcm : _is_ipython_cell_magic s = false := by
    cases hb : _is_ipython_cell_magic s with
    | false => rfl
    | true =>
      have h2 := header_first_no_commentBefore
        (show startsCellMagic (lstripList s.data) = true from hb)
      have h3 : commentBeforeHeader (sourceLines s) = false := h2
      rw [hcb] at h3
      exact Bool.noConfusion h3
  refine ⟨hcm, ?_⟩
  unfold _comment_if_ipython_magic
  rw [hcm, hcb]
  rfl

/-- C9, witness: the concrete cell of the test suite whose comment line precedes
its `%%html` header. -/
theorem C9_witness :
    _is_ipython_cell_magic "# some comment\n%%html\nsome html" = false ∧
      _comment_if_ipython_magic "# some comment\n%%html\nsome html" =
        "# some comment\n%%html\nsome html" :=
  C9_comment_cancels_cell_magic.1 "# some comment\n%%html\nsome html"
    [] [] ["some html"] "# some comment" "%%html"
    (by decide) (by decide) (by decide) (by decide)

/-- C4: in default (raise) mode `check_params` returns silently exactly when the
supplied names equal the declared names as sets; otherwise it raises a TypeError
whose message always contains the label verbatim, contains the section prefixed
`Missing params:` listing the declared-but-not-supplied names whenever there are
any, and contains the section prefixed `Unexpected params:` listing the
supplied-but-not-declared names whenever there are any, each list sorted,
comma-joined, with `and` before the last name; the declared set keeps only
targets of simple assignments, so `raise Exception` and a function definition
declare nothing and `check_params` with empty params succeeds on them. -/
theorem C4_check_params_contract (passed : List String) (source label : String) :
    ((∀ x, x ∈ declaredVariables source ↔ x ∈ passed) →
        check_params passed source label false = ⟨.ok, []⟩) ∧
      (¬(∀ x, x ∈ declaredVariables source ↔ x ∈ passed) →
        check_params passed source label false =
            ⟨.error (.typeError (mismatchMessage (missingOf passed source)
              (extraOf passed source) label)), []⟩ ∧
          label.data <:+: (mismatchMessage (missingOf passed source)
            (extraOf passed source) label).data ∧
          (missingOf passed source ≠ [] →
            (missingSection (missingOf passed source)).data <:+:
              (mismatchMessage (missingOf passed source)
                (extraOf passed source) label).data) ∧
          (extraOf passed source ≠ [] →
            (unexpectedSection (extraOf passed source)).data <:+:
              (mismatchMessage (missingOf passed source)
                (extraOf passed source) label).data)) ∧
      prettyIterable ["b", "a"] = "\x27a\x27, and \x27b\x27" ∧
      declaredVariables "raise Exception" = [] ∧
      declaredVariables "\ndef x():\n    pass\n    " = [] ∧
      check_params [] "raise Exception" label false = ⟨.ok, []⟩ ∧
      check_params [] "\ndef x():\n    pass\n    " label false = ⟨.ok, []⟩ := by
  refine ⟨fun h => check_params_match h label false, ?_, by decide, by decide, by decide,
    ?_, ?_⟩
  · intro h
    refine ⟨check_params_mismatch_raise h label, label_sub_mismatchMessage _ _ _, ?_, ?_⟩
    · intro hne
      exact missing_sub_mismatchMessage _ _ _
        (fun hemp => hne (List.isEmpty_iff.mp hemp))
    · intro hne
      exact unexpected_sub_mismatchMessage _ _ _
        (fun hemp => hne (List.isEmpty_iff.mp hemp))
  · have hd : declaredVariables "raise Exception" = [] := by decide
    exact check_params_match (fun x => by rw [hd]) label false
  · have hd : declaredVariables "\ndef x():\n    pass\n    " = [] := by decide
    exact check_params_match (fun x => by rw [hd]) label false

/-- C4, witness: the test case with params `{a: 1}` against the cell `b = None`
raises with the full mismatch message. -/
theorem C4_witness :
    check_params ["a"] "b = None" "script.py" false =
      ⟨.error (.typeError (mismatchMessage (missingOf ["a"] "b = None")
        (extraOf ["a"] "b = None") "script.py")), []⟩ :=
  ((C4_check_params_contract ["a"] "b = None" "script.py").2.1
    (fun hall => absurd ((hall "b").mp (by decide)) (by decide))).1

/-- C10: `check_params` in warn mode never raises; it emits no warning when the
declared and supplied name sets match, and exactly one warning, whose message
contains the phrase about the parameters cell not matching the task params, when
they differ. -/
theorem C10_check_params_warn_mode (passed : List String) (source label : String) :
    (check_params passed source label true).result = .ok ∧
      ((∀ x, x ∈ declaredVariables source ↔ x ∈ passed) →
        (check_params passed source label true).warnings = []) ∧
      (¬(∀ x, x ∈ declaredVariables source ↔ x ∈ passed) →
        (check_params passed source label true).warnings =
            [paramsMismatchWarning label] ∧
          paramsMismatchPhrase.data <:+: (paramsMismatchWarning label).data) := by
  refine ⟨check_params_warn_result passed source label, ?_, ?_⟩
  · intro h
    rw [check_params_match h label true]
  · intro h
    rw [check_params_mismatch_warn h label]
    exact ⟨rfl, phrase_sub_paramsMismatchWarning label⟩

/-- C10, witness: the test case with params `{a, b}` against a cell declaring
only `a` emits exactly the one mismatch warning. -/
theorem C10_witness :
    (check_params ["a", "b"] "\na = None\n" "script.py" true).warnings =
        [paramsMismatchWarning "script.py"] ∧
      paramsMismatchPhrase.data <:+: (paramsMismatchWarning "script.py").data :=
  (C10_check_params_warn_mode ["a", "b"] "\na = None\n" "script.py").2.2
    (fun hall => absurd ((hall "b").mpr (by decide)) (by decide))

/-- C3: `check_source` propagates a structural parse failure of the neutralized
assembled source unchanged as a hard syntax-error failure, and raises every batch
of semantic lint findings (undefined name at module scope, undefined local,
duplicate argument, and the control-flow keywords outside their legal construct,
the kinds enumerated by `LintKind`) as one aggregated RenderError-class failure
whose message enumerates every finding of the single pass. -/
theorem C3_check_source_raises
    (analyze : String → AnalysisResult) (nb : Notebook) :
    (∀ d, analyze (neutralizedSource nb) = .synErr d →
      (check_source analyze nb).result = .error (.synError d)) ∧
      (∀ findings, analyze (neutralizedSource nb) = .ok findings → findings ≠ [] →
        (check_source analyze nb).result =
            .error (.renderError (_make_error_message (_process_messages findings))) ∧
          ∀ f ∈ findings, f.message.data <:+:
            (_make_error_message (_process_messages findings)).data) := by
  constructor
  · intro d h
    rw [check_source_syn h]
  · intro findings h hne
    refine ⟨by rw [check_source_findings h hne], ?_⟩
    intro f hf
    unfold _make_error_message
    apply sub_of_chunk_left
    apply sub_of_chunk_right
    unfold _process_messages
    exact mem_joinWith_sub _ _ f.message (List.mem_map_of_mem _ hf)

/-- C3, witness: the bare-`if` notebook raises the syntax failure, and the
undefined-name notebook raises the aggregated RenderError. -/
theorem C3_witness :
    (check_source analyzeBadIf nbBadIf).result = .error (.synError "invalid syntax") ∧
      (check_source analyzeUndefined nbLint).result =
        .error (.renderError (_make_error_message (_process_messages
          [⟨.undefinedName, 2, "undefined name \x27b\x27"⟩]))) :=
  ⟨(C3_check_source_raises analyzeBadIf nbBadIf).1 "invalid syntax" rfl,
    ((C3_check_source_raises analyzeUndefined nbLint).2
      [⟨.undefinedName, 2, "undefined name \x27b\x27"⟩] rfl (by decide)).1⟩

/-- C5: when the analyzer itself fails for a reason unrelated to the analyzed
source, `check_source` does not raise: it returns normally after emitting exactly
one non-fatal warning whose message embeds the internal failure description. -/
theorem C5_internal_failure_warns
    (analyze : String → AnalysisResult) (nb : Notebook) (d : String)
    (h : analyze (neutralizedSource nb) = .internalErr d) :
    (check_source analyze nb).result = .ok ∧
      (check_source analyze nb).warnings = [unexpectedErrorWarning d] ∧
      d.data <:+: (unexpectedErrorWarning d).data := by
  rw [check_source_internal h]
  refine ⟨rfl, rfl, ?_⟩
  unfold unexpectedErrorWarning
  exact sub_of_chunk_left _ (sub_of_chunk_right _ (sub_refl d.data))

/-- C5, witness: the monkeypatched analyzer of the test suite, failing with
`: problem decoding source`, produces the one warning and no exception. -/
theorem C5_witness :
    (check_source analyzeInternal ([] : Notebook)).result = .ok ∧
      (check_source analyzeInternal ([] : Notebook)).warnings =
        [unexpectedErrorWarning ": problem decoding source"] ∧
      (": problem decoding source" : String).data <:+:
        (unexpectedErrorWarning ": problem decoding source").data :=
  C5_internal_failure_warns analyzeInternal ([] : Notebook)
    ": problem decoding source" rfl

/-- C1: on a notebook whose parameters cell is `a = 1` and whose later code cell
makes the analyzer report findings (an undefined `b`) or a parse failure (a bare
`if`), `check_notebook` raises that failure when `raise_` is true — the
RenderError for the lint case, the syntax failure for the syntax case — and with
`raise_` false it raises nothing and emits warnings instead. -/
theorem C1_check_notebook_raise_flag
    (analyze : String → AnalysisResult) (nb : Notebook) (label : String)
    (_hp : parametersCellSource nb = "a = 1") :
    (∀ findings, analyze (neutralizedSource nb) = .ok findings → findings ≠ [] →
      (check_notebook analyze nb [] label true).result =
          .error (.renderError (_make_error_message (_process_messages findings))) ∧
        (check_notebook analyze nb [] label false).result = .ok ∧
        (check_notebook analyze nb [] label false).warnings ≠ []) ∧
      (∀ d, analyze (neutralizedSource nb) = .synErr d →
        (check_notebook analyze nb [] label true).result = .error (.synError d) ∧
          (check_notebook analyze nb [] label false).result = .ok ∧
          (check_notebook analyze nb [] label false).warnings ≠ []) := by
  constructor
  · intro findings h hne
    obtain ⟨ht, hf⟩ :=
      check_notebook_of_source_error (check_source_findings h hne) [] label
    refine ⟨by rw [ht], ?_, ?_⟩
    · rw [hf]
      exact check_params_warn_result [] (parametersCellSource nb) label
    · rw [hf]
      simp
  · intro d h
    obtain ⟨ht, hf⟩ := check_notebook_of_source_error (check_source_syn h) [] label
    refine ⟨by rw [ht], ?_, ?_⟩
    · rw [hf]
      exact check_params_warn_result [] (parametersCellSource nb) label
    · rw [hf]
      simp

/-- C1, witness: the two notebooks of the test suite, under both raise modes. -/
theorem C1_witness :
    (check_notebook analyzeUndefined nbLint [] "file.py" true).result =
        .error (.renderError (_make_error_message (_process_messages
          [⟨.undefinedName, 2, "undefined name \x27b\x27"⟩]))) ∧
      (check_notebook analyzeUndefined nbLint [] "file.py" false).result = .ok ∧
      (check_notebook analyzeBadIf nbBadIf [] "file.py" true).result =
        .error (.synError "invalid syntax") ∧
      (check_notebook analyzeBadIf nbBadIf [] "file.py" false).result = .ok := by
  obtain ⟨h1, h2, _⟩ :=
    (C1_check_notebook_raise_flag analyzeUndefined nbLint "file.py" (by decide)).1
      [⟨.undefinedName, 2, "undefined name \x27b\x27"⟩] rfl (by decide)
  obtain ⟨h3, h4, _⟩ :=
    (C1_check_notebook_raise_flag analyzeBadIf nbBadIf "file.py" (by decide)).2
      "invalid syntax" rfl
  exact ⟨h1, h2, h3, h4⟩

/-- C2, counterexample: on the concrete bare-`if` notebook of the test suite,
`check_source` fails with a syntax failure, yet `check_notebook` called with
`raise_` false returns normally (with warnings) — refuting the claim that
`check_source` failures always propagate out of `check_notebook` as exceptions
even when `raise_` is false. -/
theorem C2_counterexample :
    (check_source analyzeBadIf nbBadIf).result = .error (.synError "invalid syntax") ∧
      (check_notebook analyzeBadIf nbBadIf [] "file.py" false).result = .ok ∧
      (check_notebook analyzeBadIf nbBadIf [] "file.py" false).warnings ≠ [] :=
  ⟨by decide, by decide, by decide⟩

/-- C2, amended: `check_notebook` runs `check_source` first; a `check_source`
failure propagates unchanged as an exception when `raise_` is true (the
parameter check is not reached), and when `raise_` is false it is downgraded to
a warning carrying the failure message, the parameter contract is then checked
in warn mode, and the call returns normally. -/
theorem C2_amended (analyze : String → AnalysisResult) (nb : Notebook)
    (params : List String) (label : String) (e : CheckError) (w : List String)
    (h : check_source analyze nb = ⟨.error e, w⟩) :
    check_notebook analyze nb params label true = ⟨.error e, w⟩ ∧
      (check_notebook analyze nb params label false).result = .ok ∧
      e.msg ∈ (check_notebook analyze nb params label false).warnings := by
  obtain ⟨ht, hf⟩ := check_notebook_of_source_error h params label
  refine ⟨ht, ?_, ?_⟩
  · rw [hf]
    exact check_params_warn_result params (parametersCellSource nb) label
  · rw [hf]
    simp

/-- C2, witness for the amended claim at the bare-`if` notebook. -/
theorem C2_amended_witness :
    check_notebook analyzeBadIf nbBadIf [] "file.py" true =
        ⟨.error (.synError "invalid syntax"), []⟩ ∧
      (check_notebook analyzeBadIf nbBadIf [] "file.py" false).result = .ok ∧
      (CheckError.synError "invalid syntax").msg ∈
        (check_notebook analyzeBadIf nbBadIf [] "file.py" false).warnings :=
  C2_amended analyzeBadIf nbBadIf [] "file.py" (.synError "invalid syntax") []
    (by decide)

end Pyflakes

/-!
### Validation against the expected values of the test suite
Each example below is one expected value of `src/tests/static_analysis/test_pyflakes.py`,
evaluated on the modelled definitions.
-/
open Pyflakes in
example : _comment_if_ipython_magic "   %cd" = "#    %cd" := by decide
open Pyflakes in
example : _comment_if_ipython_magic "! mkdir stuff" = "# ! mkdir stuff" := by decide
open Pyflakes in
example : _comment_if_ipython_magic "%%html\nsome html" = "# %%html\n# some html" := by decide
open Pyflakes in
example : _comment_if_ipython_magic "# some comment\n%%html\nsome html" =
    "# some comment\n%%html\nsome html" := by decide
open Pyflakes in
example : _comment_if_ipython_magic "\n%cd" = "\n# %cd" := by decide
open Pyflakes in
example : _comment_if_ipython_magic "1 + 1\n   %cd" = "1 + 1\n#    %cd" := by decide
open Pyflakes in
example : _is_ipython_cell_magic "\n\n   %%html\nhello" = true := by decide
open Pyflakes in
example : _is_ipython_line_magic "%%sh" = false := by decide
open Pyflakes in
example : _is_ipython_cell_magic "%%%debug" = false := by decide
open Pyflakes in
example : _is_ipython_cell_magic "%% sh" = false := by decide
open Pyflakes in
example : declaredVariables "a = None\n b = None" = ["a", "b"] := by decide
open Pyflakes in
example : declaredVariables "raise Exception" = [] := by decide
open Pyflakes in
example : declaredVariables "\ndef x():\n    pass\n    " = [] := by decide
open Pyflakes in
example : check_params [] "a = None" "script.py" false =
    ⟨.error (.typeError ("Parameters passed to \x27script.py\x27 do not match the \x27parameters\x27 cell. Missing params: \x27a\x27 (to fix this, pass \x27a\x27 in the \x27params\x27 argument).")), []⟩ := by decide
open Pyflakes in
example : check_params ["a"] "b = None" "script.py" false =
    ⟨.error (.typeError ("Parameters passed to \x27script.py\x27 do not match the \x27parameters\x27 cell. Missing params: \x27b\x27 (to fix this, pass \x27b\x27 in the \x27params\x27 argument). Unexpected params: \x27a\x27 (to fix this, add \x27a\x27 to the \x27parameters\x27 cell and assign the value as None. e.g., a = None).")), []⟩ := by decide
open Pyflakes in
example : prettyIterable ["b", "a"] = "\x27a\x27, and \x27b\x27" := by decide
open Pyflakes in
example : check_params ["b", "a"] "" "script.py" false =
    ⟨.error (.typeError ("Parameters passed to \x27script.py\x27 do not match the \x27parameters\x27 cell. Unexpected params: \x27a\x27, and \x27b\x27 (to fix this, add them to the \x27parameters\x27 cell and assign the value as None. e.g., a = None).")), []⟩ := by decide
open Pyflakes in
example : check_params ["a", "b"] "\na = None\n" "script.py" true =
    ⟨.ok, ["Parameters declared in the \x27parameters\x27 cell do not match task params. To fix it, amend the \x27parameters\x27 cell or the params argument of script.py"]⟩ := by decide
open Pyflakes in
example : check_params [] "raise Exception" "script.py" false = ⟨.ok, []⟩ := by decide
